import Mathlib

/-!
Verification development for the zksig SDK core: content addressing
(UnixFS / dag-pb / SHA-256 / CID), the secretbox encryption layer used
in `src/files.ts`, the key-derivation messages of `src/contract.ts` and
`src/ZKsigDigitalSignatureContract.ts`, the constraint model of
`src/types.ts`, pagination, and the signer ready-check.

Bytes are modelled as `List Nat` (each element a byte value `< 256`,
as produced by a JS `Uint8Array`); machine words are `Nat` reduced
explicitly modulo `2 ^ 32` where the source uses 32-bit arithmetic.
-/

namespace ZKsig

/-! ### Byte-level helpers -/

/-- Little-endian numeric value of a byte list. -/
def leNum (bs : List Nat) : Nat := bs.foldr (fun b acc => b + 256 * acc) 0

/-- `k`-byte little-endian serialization of `n % 256 ^ k`. -/
def natToLE : Nat → Nat → List Nat
  | 0, _ => []
  | k + 1, n => n % 256 :: natToLE k (n / 256)

/-- `k`-byte big-endian serialization of `n % 256 ^ k`. -/
def natToBE (k n : Nat) : List Nat := (natToLE k n).reverse

/-- Structural worker for `chunksOfSucc`; the fuel (initially the list
length) strictly bounds the recursion depth, so the zero-fuel arm is never
reached. -/
def chunksAux (k : Nat) : Nat → List Nat → List (List Nat)
  | _, [] => []
  | 0, l => [l]
  | fuel + 1, a :: l => ((a :: l).take (k + 1)) :: chunksAux k fuel ((a :: l).drop (k + 1))

/-- Split a list into consecutive chunks of size `k + 1`
(the last chunk may be shorter). -/
def chunksOfSucc (k : Nat) (l : List Nat) : List (List Nat) :=
  chunksAux k l.length l

/-- Structural worker for `varint`; the fuel (initially `n` itself, far
more than the number of base-128 digits) makes the recursion structural. -/
def varintAux : Nat → Nat → List Nat
  | 0, n => [n % 128]
  | fuel + 1, n => if n < 128 then [n] else (n % 128 + 128) :: varintAux fuel (n / 128)

/-- Unsigned LEB128 varint encoding used throughout the multiformats stack. -/
def varint (n : Nat) : List Nat := varintAux n n

/-! ### SHA-256 (FIPS 180-4), as used by `multiformats/hashes/sha2`. -/

/-- 32-bit rotate right of `x < 2 ^ 32`. -/
def rotr32 (x n : Nat) : Nat := (x / 2 ^ n + x % 2 ^ n * 2 ^ (32 - n)) % 4294967296

def sha256Ch (e f g : Nat) : Nat := (e &&& f) ^^^ ((e ^^^ 4294967295) &&& g)

def sha256Maj (a b c : Nat) : Nat := (a &&& b) ^^^ (a &&& c) ^^^ (b &&& c)

def sha256BigSigma0 (x : Nat) : Nat := rotr32 x 2 ^^^ rotr32 x 13 ^^^ rotr32 x 22

def sha256BigSigma1 (x : Nat) : Nat := rotr32 x 6 ^^^ rotr32 x 11 ^^^ rotr32 x 25

def sha256SmallSigma0 (x : Nat) : Nat := rotr32 x 7 ^^^ rotr32 x 18 ^^^ x / 2 ^ 3

def sha256SmallSigma1 (x : Nat) : Nat := rotr32 x 17 ^^^ rotr32 x 19 ^^^ x / 2 ^ 10

/-- SHA-256 round constants (FIPS 180-4 section 4.2.2, in decimal). -/
def sha256K : List Nat :=
  [1116352408, 1899447441, 3049323471, 3921009573, 961987163,
   1508970993, 2453635748, 2870763221, 3624381080, 310598401,
   607225278, 1426881987, 1925078388, 2162078206, 2614888103,
   3248222580, 3835390401, 4022224774, 264347078, 604807628,
   770255983, 1249150122, 1555081692, 1996064986, 2554220882,
   2821834349, 2952996808, 3210313671, 3336571891, 3584528711,
   113926993, 338241895, 666307205, 773529912, 1294757372,
   1396182291, 1695183700, 1986661051, 2177026350, 2456956037,
   2730485921, 2820302411, 3259730800, 3345764771, 3516065817,
   3600352804, 4094571909, 275423344, 430227734, 506948616,
   659060556, 883997877, 958139571, 1322822218, 1537002063,
   1747873779, 1955562222, 2024104815, 2227730452, 2361852424,
   2428436474, 2756734187, 3204031479, 3329325298]

/-- Running hash state: eight 32-bit words. -/
structure Hash8 where
  a : Nat
  b : Nat
  c : Nat
  d : Nat
  e : Nat
  f : Nat
  g : Nat
  hh : Nat
deriving DecidableEq

/-- SHA-256 initial hash value (FIPS 180-4 section 5.3.3, in decimal). -/
def sha256H0 : Hash8 :=
  ⟨1779033703, 3144134277, 1013904242, 2773480762, 1359893119, 2600822924, 528734635, 1541459225⟩

/-- Big-endian serialization of the state (always 32 bytes). -/
def Hash8.bytes (s : Hash8) : List Nat :=
  natToBE 4 s.a ++ natToBE 4 s.b ++ natToBE 4 s.c ++ natToBE 4 s.d ++
  natToBE 4 s.e ++ natToBE 4 s.f ++ natToBE 4 s.g ++ natToBE 4 s.hh

/-- FIPS 180-4 padding: `0x80`, zeros to 56 mod 64, 8-byte big-endian bit length. -/
def sha256Pad (m : List Nat) : List Nat :=
  m ++ 128 :: List.replicate ((119 - m.length % 64) % 64) 0 ++ natToBE 8 (8 * m.length)

/-- Big-endian numeric value of a byte list. -/
def beNum (bs : List Nat) : Nat := bs.foldl (fun a b => 256 * a + b) 0

/-- One message-schedule extension step: appends `W[i]` for `i = w.length`. -/
def scheduleStep (w : List Nat) : List Nat :=
  w ++ [(sha256SmallSigma1 (w.getD (w.length - 2) 0) + w.getD (w.length - 7) 0 +
         sha256SmallSigma0 (w.getD (w.length - 15) 0) + w.getD (w.length - 16) 0) % 4294967296]

def schedule (w : List Nat) : Nat → List Nat
  | 0 => w
  | n + 1 => scheduleStep (schedule w n)

/-- One SHA-256 round over state `st` with `(K[i], W[i])`. -/
def sha256Round (st : Hash8) (kw : Nat × Nat) : Hash8 :=
  let t1 := (st.hh + sha256BigSigma1 st.e + sha256Ch st.e st.f st.g + kw.1 + kw.2) % 4294967296
  let t2 := (sha256BigSigma0 st.a + sha256Maj st.a st.b st.c) % 4294967296
  ⟨(t1 + t2) % 4294967296, st.a, st.b, st.c, (st.d + t1) % 4294967296, st.e, st.f, st.g⟩

/-- Compress one 64-byte block into the running state. -/
def sha256Compress (h0 : Hash8) (block : List Nat) : Hash8 :=
  let w := schedule ((chunksOfSucc 3 block).map (fun c => beNum c % 4294967296)) 48
  let r := (sha256K.zip w).foldl sha256Round h0
  ⟨(h0.a + r.a) % 4294967296, (h0.b + r.b) % 4294967296, (h0.c + r.c) % 4294967296,
   (h0.d + r.d) % 4294967296, (h0.e + r.e) % 4294967296, (h0.f + r.f) % 4294967296,
   (h0.g + r.g) % 4294967296, (h0.hh + r.hh) % 4294967296⟩

/-- SHA-256 digest (32 bytes) of a byte list. -/
def sha256 (m : List Nat) : List Nat :=
  ((chunksOfSucc 63 (sha256Pad m)).foldl sha256Compress sha256H0).bytes

/-! ### Base32 (RFC 4648 lowercase, no padding), the `b` multibase. -/

/-- The eight bits of a byte, most significant first. -/
def bitsOfByte (b : Nat) : List Nat :=
  [b / 128 % 2, b / 64 % 2, b / 32 % 2, b / 16 % 2, b / 8 % 2, b / 4 % 2, b / 2 % 2, b % 2]

def base32Alphabet : List Char :=
  ['a', 'b', 'c', 'd', 'e', 'f', 'g', 'h', 'i', 'j', 'k', 'l', 'm', 'n', 'o', 'p',
   'q', 'r', 's', 't', 'u', 'v', 'w', 'x', 'y', 'z', '2', '3', '4', '5', '6', '7']

/-- Value of a (final, possibly short) 5-bit group, zero-padded on the right. -/
def fiveBitVal (l : List Nat) : Nat :=
  ((l ++ List.replicate 5 0).take 5).foldl (fun a b => 2 * a + b) 0

/-- RFC 4648 base32, lowercase, no padding. -/
def base32Encode (bytes : List Nat) : String :=
  String.mk ((chunksOfSucc 4 (bytes.flatMap bitsOfByte)).map
    (fun c => base32Alphabet.getD (fiveBitVal c) 'a'))

/-! ### UnixFS / dag-pb / CID, as inlined in `createAgreement`
(`src/contract.ts` lines 148-153):
`new UnixFS({ type: "file", data: pdf })`, `codec.encode({ Data: ..., Links: [] })`,
`CID.create(0, codec.code, await sha256.digest(...))`, `cid.toV1().toString()`. -/

/-- `ipfs-unixfs` `marshal()` of a file node with the given `data`:
protobuf fields `Type = 2` (file, field 1), `Data` (field 2) — omitted when
the data is empty (`marshal` guards `if (!this.data || !this.data.length)
data = undefined`) — and `filesize = data.length` (field 3); an empty file
thus serializes to `[8, 2, 24, 0]`, giving the canonical empty-file CID. -/
def unixfsMarshal (data : List Nat) : List Nat :=
  [8, 2] ++ (if data.length = 0 then [] else 18 :: varint data.length ++ data) ++
  (24 :: varint data.length)

/-- `@ipld/dag-pb` `encode({ Data, Links: [] })`: the empty `Links` list
(field 2, serialized before `Data`) contributes no bytes; `Data` is
field 1 (tag `0x0a`), length-delimited. -/
def dagPbEncode (data : List Nat) : List Nat :=
  10 :: varint data.length ++ data

/-- The dag-pb multicodec code (`codec.code` of `@ipld/dag-pb`). -/
def dagPbCode : Nat := 112

/-- The sha2-256 multihash code. -/
def sha256Code : Nat := 18

/-- `multiformats/hashes/sha2` `sha256.digest`: multihash bytes
`varint(0x12) ++ varint(size) ++ digest`. -/
def sha256Digest (bytes : List Nat) : List Nat :=
  varint sha256Code ++ varint (sha256 bytes).length ++ sha256 bytes

/-- A CID: version, content codec, multihash bytes. -/
structure Cid where
  version : Nat
  codec : Nat
  multihash : List Nat
deriving DecidableEq

/-- `CID.create(version, codec, multihash)`. -/
def cidCreate (version codec : Nat) (multihash : List Nat) : Cid :=
  ⟨version, codec, multihash⟩

/-- `cid.toV1()`: same codec and multihash, version normalized to 1. -/
def Cid.toV1 (c : Cid) : Cid := { c with version := 1 }

/-- `cid.toString()` on a version-1 CID: multibase prefix `b` followed by the
base32 encoding of `varint(version) ++ varint(codec) ++ multihash`.
(The version-0 base58 branch is never reached by the SDK, which always
calls `toV1()` before `toString()`.) -/
def cidV1String (c : Cid) : String :=
  "b" ++ base32Encode (varint c.version ++ varint c.codec ++ c.multihash)

/-- The content identifier computed for a document's bytes in
`createAgreement` (`src/contract.ts:148-153`, identically in the unnamed
class source): wrap as a single-block UnixFS file node with no links,
dag-pb encode, SHA-256 hash, create a v0 CID, normalize to v1, stringify. -/
def identify (B : List Nat) : String :=
  cidV1String (Cid.toV1 (cidCreate 0 dagPbCode (sha256Digest (dagPbEncode (unixfsMarshal B)))))

/-! ### XSalsa20-Poly1305 secretbox (`tweetnacl`'s `nacl.secretbox` /
`nacl.secretbox.open`), used by `src/files.ts`. -/

/-- 32-bit rotate left of `x < 2 ^ 32`. -/
def rotl32 (x n : Nat) : Nat := x % 2 ^ (32 - n) * 2 ^ n + x / 2 ^ (32 - n)

/-- The Salsa20 quarter-round on `(y0, y1, y2, y3)`. -/
def quarter (y0 y1 y2 y3 : Nat) : Nat × Nat × Nat × Nat :=
  let z1 := y1 ^^^ rotl32 ((y0 + y3) % 4294967296) 7
  let z2 := y2 ^^^ rotl32 ((z1 + y0) % 4294967296) 9
  let z3 := y3 ^^^ rotl32 ((z2 + z1) % 4294967296) 13
  let z0 := y0 ^^^ rotl32 ((z3 + z2) % 4294967296) 18
  (z0, z1, z2, z3)

/-- Salsa20 column round (always returns a 16-word state). -/
def columnround (x : List Nat) : List Nat :=
  let g := fun i => x.getD i 0
  let (y0, y4, y8, y12) := quarter (g 0) (g 4) (g 8) (g 12)
  let (y5, y9, y13, y1) := quarter (g 5) (g 9) (g 13) (g 1)
  let (y10, y14, y2, y6) := quarter (g 10) (g 14) (g 2) (g 6)
  let (y15, y3, y7, y11) := quarter (g 15) (g 3) (g 7) (g 11)
  [y0, y1, y2, y3, y4, y5, y6, y7, y8, y9, y10, y11, y12, y13, y14, y15]

/-- Salsa20 row round (always returns a 16-word state). -/
def rowround (x : List Nat) : List Nat :=
  let g := fun i => x.getD i 0
  let (z0, z1, z2, z3) := quarter (g 0) (g 1) (g 2) (g 3)
  let (z5, z6, z7, z4) := quarter (g 5) (g 6) (g 7) (g 4)
  let (z10, z11, z8, z9) := quarter (g 10) (g 11) (g 8) (g 9)
  let (z15, z12, z13, z14) := quarter (g 15) (g 12) (g 13) (g 14)
  [z0, z1, z2, z3, z4, z5, z6, z7, z8, z9, z10, z11, z12, z13, z14, z15]

def doubleround (x : List Nat) : List Nat := rowround (columnround x)

def doubleRounds : Nat → List Nat → List Nat
  | 0, x => x
  | n + 1, x => doubleRounds n (doubleround x)

/-- The Salsa20 core: 20 rounds then word-wise addition of the input state. -/
def salsa20Core (x : List Nat) : List Nat :=
  List.zipWith (fun a b => (a + b) % 4294967296) (doubleRounds 10 x) x

/-- Salsa20 expansion constants ("expand 32-byte k"). -/
def sigma0 : Nat := 0x61707865
def sigma1 : Nat := 0x3320646e
def sigma2 : Nat := 0x79622d32
def sigma3 : Nat := 0x6b206574

/-- Consecutive 4-byte little-endian words of a byte list. -/
def wordsLE (bs : List Nat) (count : Nat) : List Nat :=
  (List.range count).map (fun i => leNum ((bs.drop (4 * i)).take 4))

/-- HSalsa20: derives the XSalsa20 subkey words from key bytes and the first
16 nonce bytes; output words are taken at positions 0, 5, 10, 15, 6, 7, 8, 9
of the state after 20 rounds (no final addition). -/
def hsalsa20 (k n16 : List Nat) : List Nat :=
  let kw := wordsLE k 8
  let nw := wordsLE n16 4
  let x := [sigma0, kw.getD 0 0, kw.getD 1 0, kw.getD 2 0, kw.getD 3 0,
            sigma1, nw.getD 0 0, nw.getD 1 0, nw.getD 2 0, nw.getD 3 0,
            sigma2, kw.getD 4 0, kw.getD 5 0, kw.getD 6 0, kw.getD 7 0, sigma3]
  let r := doubleRounds 10 x
  let g := fun i => r.getD i 0
  [g 0, g 5, g 10, g 15, g 6, g 7, g 8, g 9]

/-- One 64-byte Salsa20 keystream block for subkey words `kw`, 8-byte nonce
`n8` and 64-byte block counter `ctr`. -/
def salsa20Block (kw n8 : List Nat) (ctr : Nat) : List Nat :=
  let nw := wordsLE n8 2
  let x := [sigma0, kw.getD 0 0, kw.getD 1 0, kw.getD 2 0, kw.getD 3 0,
            sigma1, nw.getD 0 0, nw.getD 1 0, ctr % 4294967296, ctr / 4294967296 % 4294967296,
            sigma2, kw.getD 4 0, kw.getD 5 0, kw.getD 6 0, kw.getD 7 0, sigma3]
  (salsa20Core x).flatMap (natToLE 4)

/-- The first `len` bytes of the XSalsa20 keystream for 32-byte key `k` and
24-byte nonce `n`. -/
def xsalsaKeystream (k n : List Nat) (len : Nat) : List Nat :=
  (((List.range ((len + 63) / 64)).flatMap
    (salsa20Block (hsalsa20 k (n.take 16)) (n.drop 16))).take len)

/-- The Poly1305 prime `2 ^ 130 - 5`. -/
def polyP : Nat := 2 ^ 130 - 5

def polyClamp (r : Nat) : Nat := r &&& 0x0ffffffc0ffffffc0ffffffc0fffffff

/-- Structural worker for `poly1305Loop`; the fuel (initially the message
length) strictly bounds the recursion depth. Each 16-byte chunk is read as
a little-endian number with a high `1` bit appended, accumulated as
`(acc + chunk) * r mod 2 ^ 130 - 5`. -/
def poly1305Aux (r : Nat) : Nat → Nat → List Nat → Nat
  | _, acc, [] => acc
  | 0, acc, _ => acc
  | fuel + 1, acc, b :: l =>
    poly1305Aux r fuel
      (((acc + leNum ((b :: l).take 16) + 2 ^ (8 * min (b :: l).length 16)) * r) % polyP)
      ((b :: l).drop 16)

def poly1305Loop (r acc : Nat) (msg : List Nat) : Nat :=
  poly1305Aux r msg.length acc msg

/-- Poly1305 one-time authenticator: 16-byte tag of `msg` under a 32-byte
one-time key. -/
def poly1305 (msg key : List Nat) : List Nat :=
  let r := polyClamp (leNum (key.take 16))
  let s := leNum ((key.drop 16).take 16)
  natToLE 16 ((poly1305Loop r 0 msg + s) % 2 ^ 128)

/-- `crypto_secretbox` as exposed by `nacl.secretbox` (lengths assumed
checked): Poly1305 tag (keyed by the first 32 keystream bytes) over the
body `m XOR keystream[32...]`, followed by the body. -/
def secretboxRaw (m n k : List Nat) : List Nat :=
  let s := xsalsaKeystream k n (32 + m.length)
  let body := List.zipWith Nat.xor m (s.drop 32)
  poly1305 body (s.take 32) ++ body

/-- `crypto_secretbox_open` as exposed by `nacl.secretbox.open` (lengths
assumed checked): `none` when the box is too short or the recomputed tag
differs from the stored tag; otherwise the XOR-decrypted body. -/
def secretboxOpenRaw (c n k : List Nat) : Option (List Nat) :=
  if c.length < 16 then none
  else
    let tag := c.take 16
    let body := c.drop 16
    let s := xsalsaKeystream k n (32 + body.length)
    if poly1305 body (s.take 32) = tag then some (List.zipWith Nat.xor body (s.drop 32))
    else none

/-- Errors surfaced by the modelled SDK paths, each carrying the exact
thrown message. -/
inductive SdkError where
  | badKeySize
  | badNonceSize
  | fetchNotOk
  | decryptionFailed
  | pinNotOk
deriving DecidableEq

def SdkError.message : SdkError → String
  | .badKeySize => "bad key size"
  | .badNonceSize => "bad nonce size"
  | .fetchNotOk => "Could not fetch agreement from IPFS"
  | .decryptionFailed => "Agreement decryption failed"
  | .pinNotOk => "Unable to pin file to IPFS"

/-- `nacl.secretbox(msg, nonce, key)` with tweetnacl's `checkLengths`
(throws "bad key size" / "bad nonce size"). -/
def secretbox (m n k : List Nat) : Except SdkError (List Nat) :=
  if k.length ≠ 32 then .error .badKeySize
  else if n.length ≠ 24 then .error .badNonceSize
  else .ok (secretboxRaw m n k)

/-- `nacl.secretbox.open(box, nonce, key)` with tweetnacl's `checkLengths`;
`some none` means authentication failure (JS `null`). -/
def secretboxOpen (c n k : List Nat) : Except SdkError (Option (List Nat)) :=
  if k.length ≠ 32 then .error .badKeySize
  else if n.length ≠ 24 then .error .badNonceSize
  else .ok (secretboxOpenRaw c n k)

/-! ### `src/files.ts` -/

/-- JS `new Uint8Array(n)`: `n` zero bytes. -/
def uint8ArrayNew (n : Nat) : List Nat := List.replicate n 0

/-- The encryption performed by `encryptAgreementAndPin`
(`src/files.ts:56-72`): `nacl.secretbox(pdf, new Uint8Array(24),
encryptionPWBytes.slice(0, 32))`. The result is the ciphertext handed to
`pinFile`; pinning itself is an external HTTP call. -/
def encryptAgreementBytes (pdf encryptionPWBytes : List Nat) : Except SdkError (List Nat) :=
  secretbox pdf (uint8ArrayNew 24) (encryptionPWBytes.take 32)

/-- The decryption step of `downloadAndDecrypt` applied to the secretbox
result: JS `null` becomes the thrown "Agreement decryption failed". -/
def decryptStep (r : Except SdkError (Option (List Nat))) : Except SdkError (List Nat) :=
  match r with
  | .error e => .error e
  | .ok none => .error .decryptionFailed
  | .ok (some pdf) => .ok pdf

/-- `downloadAndDecrypt` (`src/files.ts:5-26`); `fetched` is the fetch
outcome (`none` models `!res.ok`, which throws "Could not fetch agreement
from IPFS" before any decryption is attempted). -/
def downloadAndDecrypt (fetched : Option (List Nat)) (encryptionPWBytes : List Nat) :
    Except SdkError (List Nat) :=
  match fetched with
  | none => .error .fetchNotOk
  | some bytes =>
    decryptStep (secretboxOpen bytes (uint8ArrayNew 24) (encryptionPWBytes.take 32))

/-- Authentication failure of a secretbox ciphertext: `crypto_secretbox_open`
rejects it (wrong key, truncation, or any tampering that breaks the tag). -/
def secretboxAuthFails (c n k : List Nat) : Prop := secretboxOpenRaw c n k = none

instance (c n k : List Nat) : Decidable (secretboxAuthFails c n k) := by
  unfold secretboxAuthFails; infer_instance

/-- Flip the low bit of the last byte of a byte list (a concrete tampering). -/
def tamperLast (c : List Nat) : List Nat :=
  c.take (c.length - 1) ++ [c.getD (c.length - 1) 0 ^^^ 1]

/-! ### Key-derivation messages -/

/-- `ethers` `constants.AddressZero`. -/
def addressZero : String := "0x0000000000000000000000000000000000000000"

/-- `Buffer.from` on the (ASCII) signature strings produced by ethers. -/
def strBytes (s : String) : List Nat := s.data.map Char.toNat

/-- The plain string signed in `src/contract.ts` (template
"Encrypt PDF for ${identifier}", lines 145 and 203). -/
def encryptMessageFor (identifier : String) : String :=
  "Encrypt PDF for " ++ identifier

/-- The agreement fields bound by the typed-data encryption message
(`Pick<Agreement, "owner" | "identifier" | "cid">`). -/
structure AgreementFields where
  owner : String
  identifier : String
  cid : String
deriving DecidableEq

/-- An EIP-712 signing request as handed to `signer._signTypedData`:
domain, type name with its field list, and the encoded values. -/
structure TypedPayload where
  domainName : String
  domainVersion : String
  typeName : String
  typeFields : List (String × String)
  values : List (String × String)
deriving DecidableEq

/-- The typed-data payload built by `getAgreementEncryptionMessage`
(the `encrypt` source, domain "ZKsig Digital Signatures" v1, type
`Agreement { Owner Address, Agreement Identifier, CID }`). -/
def agreementEncryptionPayload (a : AgreementFields) : TypedPayload :=
  { domainName := "ZKsig Digital Signatures"
    domainVersion := "1"
    typeName := "Agreement"
    typeFields := [("Owner Address", "address"), ("Agreement Identifier", "string"), ("CID", "string")]
    values := [("Owner Address", a.owner), ("Agreement Identifier", a.identifier), ("CID", a.cid)] }

/-- An ethers `Signer`, modelled by its address and deterministic signing
functions (ethers ECDSA signing is RFC-6979 deterministic). -/
structure SignerModel where
  address : String
  signMessageFn : String → String
  signTypedDataFn : TypedPayload → String

/-- `getAgreementEncryptionMessage(signer, agreement)`: the signature string
over the typed-data payload, as `Buffer.from` bytes. -/
def getAgreementEncryptionMessage (s : SignerModel) (a : AgreementFields) : List Nat :=
  strBytes (s.signTypedDataFn (agreementEncryptionPayload a))

/-- Options of `createAgreement` in `src/contract.ts` (`identifier` is the
agreement identifier; descriptions are `{identifier, fields}` objects). -/
structure CreateAgreementOptionsM where
  identifier : String
  pdf : List Nat
  description : List (String × List String)
deriving DecidableEq

/-- The agreement record of `src/types.ts` (BigNumber fields as `Nat`). -/
structure AgreementM where
  owner : String
  status : Nat
  index : Nat
  identifier : String
  cid : String
  encryptedCid : String
  descriptionCid : String
  signedPackets : Nat
  totalPackets : Nat
  agreementCallback : String
  signatureCallback : String
deriving DecidableEq

/-- The signature packet record of `src/types.ts`. -/
structure SignaturePacketM where
  agreementOwner : String
  agreementIndex : Nat
  index : Nat
  identifier : String
  encryptedCid : String
  signer : String
  timestamp : Nat
  blockNumber : Nat
deriving DecidableEq

/-- Options of `sign` in `src/contract.ts` (`identifier` is the signature
slot identifier, passed on-chain as the packet's `identifier`). -/
structure SignOptionsM where
  agreement : AgreementM
  identifier : String
  pdf : List Nat
deriving DecidableEq

/-- The message requested from the signer by `createAgreement`
(`src/contract.ts:144-146`): bound to the agreement identifier. -/
def createAgreementSignedMessage (o : CreateAgreementOptionsM) : String :=
  encryptMessageFor o.identifier

/-- The message requested from the signer by `sign`
(`src/contract.ts:202-204`): bound to the slot identifier argument. -/
def signSignedMessage (o : SignOptionsM) : String :=
  encryptMessageFor o.identifier

/-! ### Constraints -/

/-- `SignatureConstraint` of `src/types.ts` (BigNumbers as `Nat`;
`allowedToUse = 0` means unlimited). -/
structure SigConstraint where
  identifier : String
  signer : String
  totalUsed : Nat
  allowedToUse : Nat
deriving DecidableEq

inductive DenialReason where
  | noSuchSlot
  | wrongSigner
  | exhaustedSlot
deriving DecidableEq

inductive AuthResult where
  | authorized (updated : SigConstraint)
  | denied (reason : DenialReason)
deriving DecidableEq

/-- Modelled from the spec: the ConstraintValidator (`authorize`) is not
present under `src/` (it lives in the on-chain DigitalSignature contract);
per the spec, locate the constraint whose `identifier` equals
`slotIdentifier`, deny `NoSuchSlot` if none, deny `WrongSigner` for a
non-wildcard signer different from the proposed signer, deny
`ExhaustedSlot` when `allowedToUse` is nonzero and `totalUsed ≥
allowedToUse`, else authorize with `totalUsed` incremented. -/
def authorize (constraints : List SigConstraint) (slotIdentifier signer : String) : AuthResult :=
  match constraints.find? (fun c => c.identifier == slotIdentifier) with
  | none => .denied .noSuchSlot
  | some c =>
    if c.signer ≠ addressZero ∧ c.signer ≠ signer then .denied .wrongSigner
    else if c.allowedToUse ≠ 0 ∧ c.allowedToUse ≤ c.totalUsed then .denied .exhaustedSlot
    else .authorized { c with totalUsed := c.totalUsed + 1 }

/-- Iterate `authorize` on a single constraint, feeding back the would-be
updated constraint; `none` records a denial along the way. -/
def authorizeIter (slotIdentifier signer : String) : Nat → SigConstraint → Option SigConstraint
  | 0, c => some c
  | n + 1, c =>
    match authorize [c] slotIdentifier signer with
    | .authorized c2 => authorizeIter slotIdentifier signer n c2
    | .denied _ => none

/-- A caller-supplied slot description `{identifier, signer?, allowedToUse?}`. -/
structure SlotDescriptionInput where
  identifier : String
  signer : Option String
  allowedToUse : Option Nat
deriving DecidableEq

/-- A validated description entry as held by a `ZKsigAgreement`. -/
structure DescriptionEntry where
  identifier : String
  signer : String
  allowedToUse : Nat
deriving DecidableEq

/-- Modelled from the spec: `ZKsigAgreement` (not present under `src/`)
validates slot descriptions at construction time, defaulting `signer` to
the wildcard (zero) address and `allowedToUse` to 1. -/
def mkDescriptionEntry (d : SlotDescriptionInput) : DescriptionEntry :=
  { identifier := d.identifier
    signer := d.signer.getD addressZero
    allowedToUse := d.allowedToUse.getD 1 }

/-- JS `a || b` on strings: `b` exactly when `a` is the empty string. -/
def jsStringOr (a b : String) : String := if a = "" then b else a

/-- The constraint list built by `ZKsigDigitalSignatureContract.createAgreement`
(`src/ZKsigDigitalSignatureContract.ts:241-248`) from the agreement's
description entries. -/
def classCreateConstraints (description : List DescriptionEntry) : List SigConstraint :=
  description.map fun e =>
    { identifier := e.identifier
      allowedToUse := e.allowedToUse
      signer := jsStringOr e.signer addressZero
      totalUsed := 0 }

/-- The constraint list built by `createAgreement` in `src/contract.ts`
(lines 155-160) from `{identifier, fields}` descriptions: wildcard signer,
`totalUsed = 0`, `allowedToUse = 1`. -/
def createAgreementConstraints (description : List (String × List String)) : List SigConstraint :=
  description.map fun d =>
    { identifier := d.1
      signer := addressZero
      totalUsed := 0
      allowedToUse := 1 }

/-! ### Pagination (`src/contract.ts:66-127`) -/

/-- `getAgreements` / `getSignatures` of `src/contract.ts`: the remote list
call receives offset `(page - 1) * perPage` (JS number arithmetic, hence
`Int`) and limit `perPage`. -/
def contractGetList {α : Type} (remote : Int → Nat → List α) (page perPage : Nat) : List α :=
  remote (((page : Int) - 1) * perPage) perPage

/-- `getAgreement` / `getSignature` of `src/contract.ts`: destructure the
first element of page `index + 1` with `perPage = 1` (`undefined`, i.e.
`none`, when the page is empty). -/
def contractGetByIndex {α : Type} (remote : Int → Nat → List α) (index : Nat) : Option α :=
  (contractGetList remote (index + 1) 1).head?

/-- Modelled from the spec: the ledger collaborator's
`listAgreements(address, offset, limit)` returns the stored items from
`offset`, at most `limit` of them (empty on a negative offset). -/
def ledgerList {α : Type} (stored : List α) (offset : Int) (limit : Nat) : List α :=
  if offset < 0 then [] else (stored.drop offset.toNat).take limit

/-! ### `ZKsigDigitalSignatureContract` (`src/ZKsigDigitalSignatureContract.ts`) -/

/-- The error message thrown by `_readyCheck`
(`src/ZKsigDigitalSignatureContract.ts:312-318`). -/
def readyCheckMsg : String := "Use `setSigner` to set an ethers Signer before using contract"

/-- A remote interaction issued by a contract method: ethers signer calls,
smart-contract calls, and IPFS pinning uploads. -/
inductive RemoteCall where
  | signerGetAddress
  | signerSignTypedData (payload : TypedPayload)
  | signerSignMessage (message : String)
  | chainGetProfile
  | chainGetAgreements (address : String) (offset : Int) (limit : Nat)
  | chainGetSignatures (address : String) (offset : Int) (limit : Nat)
  | chainCreateAgreement (identifier cid encryptedCid descriptionCid : String)
      (constraints : List SigConstraint)
  | chainSign (identifier encryptedCid agreementOwner : String) (agreementIndex : Nat)
  | storePin (name : String)

/-- `Profile` of `src/types.ts`. -/
structure ProfileM where
  totalAgreements : Nat
  totalSignatures : Nat
deriving DecidableEq

/-- Responses of the external collaborators (chain reads, pin uploads,
transaction receipts), all opaque to the SDK. -/
structure RemoteOracle where
  profile : ProfileM
  agreements : String → Int → Nat → List AgreementM
  signatures : String → Int → Nat → List SignaturePacketM
  storeIdentify : List Nat → String
  pinOk : Bool
  createReceipt : Nat
  signReceipt : Nat

/-- A `ZKsigDigitalSignatureContract` instance: its resolved contract
address and the optional signer of the underlying ethers `Contract`. -/
structure ContractModel where
  contractAddress : String
  signer : Option SignerModel

/-- The modelled `ZKsigAgreement` argument of the class `createAgreement`:
identifier, document bytes, and validated description entries (the class
file only consumes `getIdentifier()`, `toBytes()`, `getCID()` and
`getDescription()`). -/
structure ZKsigAgreementModel where
  identifier : String
  pdf : List Nat
  description : List DescriptionEntry

/-- Modelled from the spec: `ZKsigAgreement.getCID()` (not present under
`src/`) computes the document's content identifier exactly as the inline
pipeline of `createAgreement` does. -/
def agreementGetCID (a : ZKsigAgreementModel) : Cid :=
  cidCreate 0 dagPbCode (sha256Digest (dagPbEncode (unixfsMarshal a.pdf)))

/-- `JSON.stringify` of the description entries (deterministic; braces
written as their escapes). -/
def descriptionJson (l : List DescriptionEntry) : String :=
  "[" ++ String.intercalate ","
    (l.map (fun e => "\x7b\"identifier\":\"" ++ e.identifier ++ "\",\"signer\":\"" ++
      e.signer ++ "\",\"allowedToUse\":" ++ toString e.allowedToUse ++ "\x7d")) ++ "]"

/-- `address || await this._contract.signer.getAddress()`: the JS `||`
falls back on an absent or empty address, and only then is `getAddress`
called. -/
def resolveAddress (address : Option String) (s : SignerModel) : List RemoteCall × String :=
  match address with
  | some a => if a = "" then ([.signerGetAddress], s.address) else ([], a)
  | none => ([.signerGetAddress], s.address)

/-- `getProfile()`: ready-check, then the chain read. -/
def classGetProfile (c : ContractModel) (o : RemoteOracle) :
    List RemoteCall × Except String ProfileM :=
  match c.signer with
  | none => ([], .error readyCheckMsg)
  | some _ => ([.chainGetProfile], .ok o.profile)

/-- `getAgreements({address, page, perPage})`: ready-check, address
resolution, then the chain read at offset `(page - 1) * perPage`. -/
def classGetAgreements (c : ContractModel) (o : RemoteOracle)
    (address : Option String) (page perPage : Nat) :
    List RemoteCall × Except String (List AgreementM) :=
  match c.signer with
  | none => ([], .error readyCheckMsg)
  | some s =>
    let r := resolveAddress address s
    (r.1 ++ [.chainGetAgreements r.2 (((page : Int) - 1) * perPage) perPage],
     .ok (o.agreements r.2 (((page : Int) - 1) * perPage) perPage))

/-- `getAgreement({address, index})`: ready-check, then the first element of
page `index + 1` with `perPage = 1`. -/
def classGetAgreement (c : ContractModel) (o : RemoteOracle)
    (address : Option String) (index : Nat) :
    List RemoteCall × Except String (Option AgreementM) :=
  match c.signer with
  | none => ([], .error readyCheckMsg)
  | some _ =>
    let r := classGetAgreements c o address (index + 1) 1
    (r.1, r.2.map List.head?)

/-- `getSignatures({address, page, perPage})`. -/
def classGetSignatures (c : ContractModel) (o : RemoteOracle)
    (address : Option String) (page perPage : Nat) :
    List RemoteCall × Except String (List SignaturePacketM) :=
  match c.signer with
  | none => ([], .error readyCheckMsg)
  | some s =>
    let r := resolveAddress address s
    (r.1 ++ [.chainGetSignatures r.2 (((page : Int) - 1) * perPage) perPage],
     .ok (o.signatures r.2 (((page : Int) - 1) * perPage) perPage))

/-- `getSignature({address, index})`. -/
def classGetSignature (c : ContractModel) (o : RemoteOracle)
    (address : Option String) (index : Nat) :
    List RemoteCall × Except String (Option SignaturePacketM) :=
  match c.signer with
  | none => ([], .error readyCheckMsg)
  | some _ =>
    let r := classGetSignatures c o address (index + 1) 1
    (r.1, r.2.map List.head?)

/-- `getAgreementEncryptionMessage(agreement)`: ready-check, then the signer
typed-data request for the agreement's owner/identifier/cid. -/
def classGetAgreementEncryptionMessage (c : ContractModel) (a : AgreementM) :
    List RemoteCall × Except String (List Nat) :=
  match c.signer with
  | none => ([], .error readyCheckMsg)
  | some s =>
    ([.signerSignTypedData (agreementEncryptionPayload ⟨a.owner, a.identifier, a.cid⟩)],
     .ok (getAgreementEncryptionMessage s ⟨a.owner, a.identifier, a.cid⟩))

/-- `createAgreement(agreement)` (`src/ZKsigDigitalSignatureContract.ts:224-272`):
ready-check; address, CID and bytes; typed-data key derivation bound to
`{cid, owner, identifier}`; constraints from the description; encrypt and
pin the document and the serialized description; submit on-chain. -/
def classCreateAgreement (c : ContractModel) (o : RemoteOracle) (ag : ZKsigAgreementModel) :
    List RemoteCall × Except String Nat :=
  match c.signer with
  | none => ([], .error readyCheckMsg)
  | some s =>
    let address := s.address
    let cidString := cidV1String (Cid.toV1 (agreementGetCID ag))
    let payload := agreementEncryptionPayload ⟨address, ag.identifier, cidString⟩
    let pw := strBytes (s.signTypedDataFn payload)
    let constraints := classCreateConstraints ag.description
    let calls0 : List RemoteCall := [.signerGetAddress, .signerSignTypedData payload]
    match secretbox ag.pdf (uint8ArrayNew 24) (pw.take 32) with
    | .error e => (calls0, .error e.message)
    | .ok encrypted =>
      if o.pinOk then
        let encryptedCid := o.storeIdentify encrypted
        let descriptionCid := o.storeIdentify (strBytes (descriptionJson ag.description))
        (calls0 ++
          [.storePin (address ++ " - " ++ ag.identifier),
           .storePin ("Description: " ++ address ++ " - " ++ ag.identifier),
           .chainCreateAgreement ag.identifier cidString encryptedCid descriptionCid constraints],
         .ok o.createReceipt)
      else
        (calls0 ++ [.storePin (address ++ " - " ++ ag.identifier)],
         .error (SdkError.pinNotOk).message)

/-- `sign({agreement, identifier, pdf})`
(`src/ZKsigDigitalSignatureContract.ts:277-310`): ready-check; typed-data
key derivation for the agreement; encrypt and pin; submit on-chain. -/
def classSign (c : ContractModel) (o : RemoteOracle)
    (agreement : AgreementM) (identifier : String) (pdf : List Nat) :
    List RemoteCall × Except String Nat :=
  match c.signer with
  | none => ([], .error readyCheckMsg)
  | some s =>
    let address := s.address
    let payload := agreementEncryptionPayload ⟨agreement.owner, agreement.identifier, agreement.cid⟩
    let pw := strBytes (s.signTypedDataFn payload)
    let calls0 : List RemoteCall := [.signerGetAddress, .signerSignTypedData payload]
    match secretbox pdf (uint8ArrayNew 24) (pw.take 32) with
    | .error e => (calls0, .error e.message)
    | .ok encrypted =>
      let name := "Signature - " ++ address ++ " - " ++ identifier ++ " on " ++ agreement.identifier
      if o.pinOk then
        (calls0 ++ [.storePin name,
          .chainSign identifier (o.storeIdentify encrypted) agreement.owner agreement.index],
         .ok o.signReceipt)
      else
        (calls0 ++ [.storePin name], .error (SdkError.pinNotOk).message)

/-- A concrete remote oracle used by witnesses. -/
def oracleW : RemoteOracle :=
  ⟨⟨0, 0⟩, fun _ _ _ => [], fun _ _ _ => [], fun _ => "", true, 0, 0⟩

/-- A concrete stored agreement used by witnesses. -/
def agreementW : AgreementM :=
  ⟨"0xOwner", 0, 0, "agreement-1", "bafycid", "bafyenc", "bafydesc", 0, 0, addressZero, addressZero⟩

/-! ### Helper lemmas -/

theorem natToLE_length (k : Nat) : ∀ n, (natToLE k n).length = k := by
  induction k with
  | zero => intro n; rfl
  | succ k ih => intro n; simp [natToLE, ih]

theorem natToBE_length (k n : Nat) : (natToBE k n).length = k := by
  simp [natToBE, natToLE_length]

theorem hash8Bytes_length (s : Hash8) : s.bytes.length = 32 := by
  simp [Hash8.bytes, natToBE_length]

theorem sha256_length (m : List Nat) : (sha256 m).length = 32 := by
  simp [sha256, hash8Bytes_length]

theorem columnround_length (x : List Nat) : (columnround x).length = 16 := rfl

theorem rowround_length (x : List Nat) : (rowround x).length = 16 := rfl

theorem doubleround_length (x : List Nat) : (doubleround x).length = 16 := rfl

theorem doubleRounds_length (n : Nat) : ∀ x : List Nat, (doubleRounds (n + 1) x).length = 16 := by
  induction n with
  | zero => intro x; exact doubleround_length x
  | succ n ih => intro x; exact ih (doubleround x)

theorem flatMapLE4_length (l : List Nat) : (l.flatMap (natToLE 4)).length = 4 * l.length := by
  induction l with
  | nil => rfl
  | cons a t ih => simp [List.flatMap_cons, ih, natToLE_length]; omega

theorem salsa20Block_length (kw n8 : List Nat) (ctr : Nat) :
    (salsa20Block kw n8 ctr).length = 64 := by
  rw [salsa20Block, flatMapLE4_length, salsa20Core, List.length_zipWith,
    doubleRounds_length 9]
  rfl

theorem salsaBlocks_length (kw n8 : List Nat) (m : Nat) :
    ((List.range m).flatMap (salsa20Block kw n8)).length = 64 * m := by
  induction m with
  | zero => rfl
  | succ m ih =>
    rw [List.range_succ, List.flatMap_append, List.length_append, ih]
    simp [salsa20Block_length]
    omega

theorem xsalsaKeystream_length (k n : List Nat) (len : Nat) :
    (xsalsaKeystream k n len).length = len := by
  rw [xsalsaKeystream, List.length_take, salsaBlocks_length]
  have h1 := Nat.div_add_mod (len + 63) 64
  have h2 := Nat.mod_lt (len + 63) (show 0 < 64 by omega)
  omega

theorem poly1305_length (msg key : List Nat) : (poly1305 msg key).length = 16 := by
  simp [poly1305, natToLE_length]

theorem zipWith_xor_cancel : ∀ (m t : List Nat), m.length ≤ t.length →
    List.zipWith Nat.xor (List.zipWith Nat.xor m t) t = m := by
  intro m
  induction m with
  | nil => intro t _; rfl
  | cons a m ih =>
    intro t ht
    cases t with
    | nil => simp at ht
    | cons b t =>
      simp only [List.zipWith_cons_cons, List.cons.injEq]
      exact ⟨Nat.xor_cancel_right b a, ih t (by simpa using ht)⟩

theorem secretboxRaw_eq (m n k : List Nat) :
    secretboxRaw m n k =
      poly1305 (List.zipWith Nat.xor m ((xsalsaKeystream k n (32 + m.length)).drop 32))
        ((xsalsaKeystream k n (32 + m.length)).take 32) ++
      List.zipWith Nat.xor m ((xsalsaKeystream k n (32 + m.length)).drop 32) := rfl

theorem secretboxOpenRaw_append (tag body n k : List Nat) (htl : tag.length = 16)
    (hcheck : poly1305 body ((xsalsaKeystream k n (32 + body.length)).take 32) = tag) :
    secretboxOpenRaw (tag ++ body) n k =
      some (List.zipWith Nat.xor body ((xsalsaKeystream k n (32 + body.length)).drop 32)) := by
  unfold secretboxOpenRaw
  have hlen : ¬(tag ++ body).length < 16 := by
    simp [List.length_append, htl]
  rw [if_neg hlen]
  have ht : (tag ++ body).take 16 = tag := by rw [← htl]; exact List.take_left tag body
  have hd : (tag ++ body).drop 16 = body := by rw [← htl]; exact List.drop_left tag body
  simp only [ht, hd, hcheck, if_pos]

/-- The raw secretbox roundtrip: opening a freshly sealed box with the same
nonce and key authenticates and returns the plaintext. -/
theorem secretboxRaw_roundtrip (m n k : List Nat) :
    secretboxOpenRaw (secretboxRaw m n k) n k = some m := by
  have hsl := xsalsaKeystream_length k n (32 + m.length)
  have hbl : (List.zipWith Nat.xor m ((xsalsaKeystream k n (32 + m.length)).drop 32)).length
      = m.length := by
    simp [List.length_zipWith, List.length_drop, hsl]
  rw [secretboxRaw_eq,
    secretboxOpenRaw_append _ _ n k (poly1305_length _ _) (by rw [hbl]), hbl]
  exact congrArg some (zipWith_xor_cancel m _ (by simp [List.length_drop, hsl]))

theorem head?_take_one {α : Type} (l : List α) : (l.take 1).head? = l.head? := by
  cases l <;> rfl

theorem head?_drop_eq {α : Type} : ∀ (n : Nat) (l : List α), (l.drop n).head? = l[n]? := by
  intro n
  induction n with
  | zero => intro l; cases l <;> simp
  | succ n ih =>
    intro l
    cases l with
    | nil => rfl
    | cons a t => simp [ih t]

/-! ### Claims -/

set_option maxRecDepth 100000 in
/-- Claim C1: the content identifier of a byte sequence `B` is computed by
wrapping `B` as a single-block UnixFS file node with no child links,
encoding that node with the dag-pb codec (0x70), hashing the encoded bytes
with SHA-256 (multihash 0x12, 32 bytes), and normalizing the CID to
version 1 (multibase `b`); it is a deterministic pure function of `B`
alone, and is defined (a valid 59-character v1 identifier) on empty input. -/
theorem identify_content_addressing (B : List Nat) :
    identify B =
      "b" ++ base32Encode (1 :: 112 :: 18 :: 32 :: sha256 (dagPbEncode (unixfsMarshal B))) ∧
    (∀ C : List Nat, B = C → identify B = identify C) ∧
    identify [] = "bafybeif7ztnhq65lumvvtr4ekcwd2ifwgm3awq4zfr3srh462rwyinlb4y" ∧
    (identify []).length = 59 := by
  refine ⟨?_, fun C h => by rw [h], by decide, by decide⟩
  have h32 := sha256_length (dagPbEncode (unixfsMarshal B))
  have hv1 : varint 1 = [1] := by decide
  have hv112 : varint 112 = [112] := by decide
  have hv18 : varint 18 = [18] := by decide
  have hv32 : varint 32 = [32] := by decide
  simp [identify, cidV1String, Cid.toV1, cidCreate, sha256Digest, dagPbCode, sha256Code,
    h32, hv1, hv112, hv18, hv32]

/-- Witness for C1 at a concrete input. -/
theorem identify_content_addressing_witness :
    identify [104, 105] = identify [104, 105] :=
  (identify_content_addressing [104, 105]).2.1 [104, 105] rfl

/-- Claim C2: for every plaintext and every password byte sequence holding a
full 32-byte key, decrypting (as `downloadAndDecrypt` does) the ciphertext
produced by `encryptAgreementAndPin`'s encryption returns exactly the
plaintext. -/
theorem encrypt_decrypt_roundtrip (pdf pw : List Nat) (h : 32 ≤ pw.length) :
    encryptAgreementBytes pdf pw = .ok (secretboxRaw pdf (uint8ArrayNew 24) (pw.take 32)) ∧
    downloadAndDecrypt (some (secretboxRaw pdf (uint8ArrayNew 24) (pw.take 32))) pw = .ok pdf := by
  have hk : (pw.take 32).length = 32 := by rw [List.length_take]; omega
  constructor
  · simp [encryptAgreementBytes, secretbox, hk, uint8ArrayNew]
  · simp [downloadAndDecrypt, decryptStep, secretboxOpen, hk, uint8ArrayNew,
      secretboxRaw_roundtrip]

/-- Witness for C2 at a concrete plaintext and key. -/
theorem encrypt_decrypt_roundtrip_witness :
    downloadAndDecrypt (some (secretboxRaw [1, 2, 3] (uint8ArrayNew 24) ((List.range 40).take 32)))
      (List.range 40) = .ok [1, 2, 3] :=
  (encrypt_decrypt_roundtrip [1, 2, 3] (List.range 40) (by decide)).2

/-- Claim C3 counterexample: in `src/contract.ts` the message signed during
`sign` is built from the slot identifier, so for an agreement with
identifier "agreement-1" and a sign call on slot "employee" the signing
message requested during sign differs from the one requested during
create. -/
theorem sign_message_differs_from_create :
    (SignOptionsM.mk agreementW "employee" []).agreement.identifier =
      (CreateAgreementOptionsM.mk "agreement-1" [] []).identifier ∧
    signSignedMessage (SignOptionsM.mk agreementW "employee" []) ≠
      createAgreementSignedMessage (CreateAgreementOptionsM.mk "agreement-1" [] []) := by
  constructor
  · rfl
  · decide

/-- Claim C3 (amended): in `src/contract.ts` the message requested during
`sign` equals the message requested during create exactly when the slot
identifier passed to `sign` equals the agreement identifier used at
creation — both use the template "Encrypt PDF for <identifier>", but
`sign` instantiates it with the slot identifier. -/
theorem sign_message_matches_create_iff (c : CreateAgreementOptionsM) (s : SignOptionsM) :
    signSignedMessage s = createAgreementSignedMessage c ↔ s.identifier = c.identifier := by
  constructor
  · intro h
    have h2 := congrArg String.data h
    simp only [signSignedMessage, createAgreementSignedMessage, encryptMessageFor,
      String.data_append] at h2
    have h3 := List.append_cancel_left h2
    cases hs : s.identifier
    cases hc : c.identifier
    simp_all
  · intro h
    simp [signSignedMessage, createAgreementSignedMessage, encryptMessageFor, h]

/-- Claim C4: the symmetric key is the first 32 bytes of the signature
bytes (truncation), and bytes beyond index 31 have no effect on either
encryption or decryption. -/
theorem key_is_signature_truncation :
    (∀ pdf pw, encryptAgreementBytes pdf pw = secretbox pdf (uint8ArrayNew 24) (pw.take 32)) ∧
    (∀ pdf pw1 pw2, pw1.take 32 = pw2.take 32 →
      encryptAgreementBytes pdf pw1 = encryptAgreementBytes pdf pw2) ∧
    (∀ fetched pw1 pw2, pw1.take 32 = pw2.take 32 →
      downloadAndDecrypt fetched pw1 = downloadAndDecrypt fetched pw2) := by
  refine ⟨fun _ _ => rfl, fun pdf pw1 pw2 h => ?_, fun fetched pw1 pw2 h => ?_⟩
  · simp [encryptAgreementBytes, h]
  · cases fetched <;> simp [downloadAndDecrypt, h]

/-- Witness for C4: appending bytes beyond index 31 leaves the ciphertext
unchanged. -/
theorem key_is_signature_truncation_witness :
    encryptAgreementBytes [7] (List.range 40) =
      encryptAgreementBytes [7] (List.range 32 ++ [999]) :=
  key_is_signature_truncation.2.1 [7] (List.range 40) (List.range 32 ++ [999]) (by decide)

/-- Claim C5: every encryption and every decryption uses the fixed all-zero
24-byte nonce (`new Uint8Array(24)`), and no other nonce value. -/
theorem fixed_zero_nonce :
    (∀ pdf pw, encryptAgreementBytes pdf pw = secretbox pdf (List.replicate 24 0) (pw.take 32)) ∧
    (∀ bytes pw, downloadAndDecrypt (some bytes) pw =
      decryptStep (secretboxOpen bytes (List.replicate 24 0) (pw.take 32))) ∧
    (List.replicate 24 0).length = 24 ∧
    (∀ i, i < 24 → (List.replicate 24 0).getD i 0 = 0) := by
  refine ⟨fun _ _ => rfl, fun _ _ => rfl, rfl, fun i h => ?_⟩
  rw [List.getD_eq_getElem?_getD, List.getElem?_replicate]
  simp [h]

/-- Witness for C5: the nonce byte at a concrete index is zero. -/
theorem fixed_zero_nonce_witness : (List.replicate 24 0).getD 5 0 = 0 :=
  fixed_zero_nonce.2.2.2 5 (by decide)

/-- Claim C6: when authentication of a fetched ciphertext fails (wrong key,
tampering, truncation), `downloadAndDecrypt` raises the decryption-failure
error — never altered plaintext — while a storage miss raises the distinct
fetch error, so the two error kinds are never conflated. -/
theorem decrypt_fails_closed (c pw : List Nat) (hpw : 32 ≤ pw.length)
    (hauth : secretboxAuthFails c (uint8ArrayNew 24) (pw.take 32)) :
    downloadAndDecrypt (some c) pw = .error .decryptionFailed ∧
    (∀ pdf, downloadAndDecrypt (some c) pw ≠ .ok pdf) ∧
    downloadAndDecrypt none pw = .error .fetchNotOk ∧
    SdkError.decryptionFailed ≠ SdkError.fetchNotOk ∧
    SdkError.decryptionFailed.message ≠ SdkError.fetchNotOk.message := by
  have hk : (pw.take 32).length = 32 := by rw [List.length_take]; omega
  unfold secretboxAuthFails at hauth
  have hopen : secretboxOpen c (uint8ArrayNew 24) (pw.take 32) = .ok none := by
    unfold secretboxOpen
    rw [if_neg (by simp [hk]), if_neg (by simp [uint8ArrayNew]), hauth]
  have h1 : downloadAndDecrypt (some c) pw = .error .decryptionFailed := by
    simp [downloadAndDecrypt, hopen, decryptStep]
  refine ⟨h1, fun pdf => by simp [h1], rfl, by decide, by decide⟩

/-- Witness for C6: flipping the low bit of the last ciphertext byte of a
concrete encryption makes decryption fail with the decryption error. -/
theorem decrypt_fails_closed_witness :
    downloadAndDecrypt
      (some (tamperLast (secretboxRaw [115, 101, 99, 114, 101, 116] (uint8ArrayNew 24)
        ((List.range 64).take 32)))) (List.range 64) = .error .decryptionFailed :=
  (decrypt_fails_closed _ (List.range 64) (by decide) (by decide)).1

/-- Claim C7: `authorize` denies `NoSuchSlot` when no constraint matches the
slot identifier; for the matching constraint it denies `WrongSigner` for a
non-wildcard signer different from the proposed one, denies
`ExhaustedSlot` when `allowedToUse` is nonzero and `totalUsed ≥
allowedToUse`, and otherwise authorizes with `totalUsed` incremented;
with `allowedToUse = 0` any number of iterated calls succeed. -/
theorem authorize_spec (cs : List SigConstraint) (slot sgn : String) :
    ((∀ c ∈ cs, c.identifier ≠ slot) → authorize cs slot sgn = .denied .noSuchSlot) ∧
    (∀ c, cs.find? (fun x => x.identifier == slot) = some c →
      ((c.signer ≠ addressZero ∧ c.signer ≠ sgn →
         authorize cs slot sgn = .denied .wrongSigner) ∧
       ((c.signer = addressZero ∨ c.signer = sgn) → c.allowedToUse ≠ 0 →
         c.allowedToUse ≤ c.totalUsed → authorize cs slot sgn = .denied .exhaustedSlot) ∧
       ((c.signer = addressZero ∨ c.signer = sgn) →
         (c.allowedToUse = 0 ∨ c.totalUsed < c.allowedToUse) →
         authorize cs slot sgn = .authorized { c with totalUsed := c.totalUsed + 1 }))) ∧
    (∀ (n : Nat) (c : SigConstraint), c.identifier = slot →
      (c.signer = addressZero ∨ c.signer = sgn) → c.allowedToUse = 0 →
      authorizeIter slot sgn n c ≠ none) := by
  refine ⟨fun hnone => ?_, fun c hfind => ⟨fun hw => ?_, fun hs ha hu => ?_, fun hs hfree => ?_⟩,
    fun n => ?_⟩
  · have : cs.find? (fun x => x.identifier == slot) = none := by
      rw [List.find?_eq_none]
      intro x hx
      simpa using hnone x hx
    simp [authorize, this]
  · simp only [authorize, hfind]
    rw [if_pos hw]
  · simp only [authorize, hfind]
    rw [if_neg (by tauto), if_pos ⟨ha, hu⟩]
  · simp only [authorize, hfind]
    rw [if_neg (by tauto), if_neg (by omega)]
  · induction n with
    | zero => intro c _ _ _; simp [authorizeIter]
    | succ n ih =>
      intro c hid hsig hall
      have hstep : authorize [c] slot sgn = .authorized { c with totalUsed := c.totalUsed + 1 } := by
        have hfind : [c].find? (fun x => x.identifier == slot) = some c := by
          simp [List.find?, hid]
        simp only [authorize, hfind]
        rw [if_neg (by tauto), if_neg (by simp [hall])]
      simp only [authorizeIter, hstep]
      exact ih { c with totalUsed := c.totalUsed + 1 } hid hsig hall

/-- Witness for C7: concrete authorize outcomes for a one-slot agreement
and an unlimited slot. -/
theorem authorize_spec_witness :
    authorize [⟨"employee", addressZero, 0, 1⟩] "employee" "0xabc" =
      .authorized ⟨"employee", addressZero, 1, 1⟩ ∧
    authorize [⟨"employee", addressZero, 0, 1⟩] "boss" "0xabc" = .denied .noSuchSlot ∧
    authorizeIter "employee" "0xabc" 3 ⟨"employee", addressZero, 0, 0⟩ ≠ none := by
  refine ⟨?_, ?_, ?_⟩
  · exact ((authorize_spec [⟨"employee", addressZero, 0, 1⟩] "employee" "0xabc").2.1
      ⟨"employee", addressZero, 0, 1⟩ (by decide)).2.2 (Or.inl rfl) (Or.inr (by decide))
  · exact (authorize_spec [⟨"employee", addressZero, 0, 1⟩] "boss" "0xabc").1 (by decide)
  · exact (authorize_spec [⟨"employee", addressZero, 0, 0⟩] "employee" "0xabc").2.2 3
      ⟨"employee", addressZero, 0, 0⟩ rfl (Or.inl rfl) rfl

/-- Claim C8: the constraint list submitted at creation has one constraint
per caller-supplied slot description, each with `totalUsed = 0`, `signer`
the given signer or the wildcard (zero) address when omitted, and
`allowedToUse` the given value or 1 when omitted (the `src/contract.ts`
variant always submits wildcard signer and `allowedToUse = 1`, its
descriptions having no such fields). -/
theorem createAgreement_constraints (ds : List SlotDescriptionInput)
    (hval : ∀ d ∈ ds, d.signer ≠ some "") :
    (classCreateConstraints (ds.map mkDescriptionEntry)).length = ds.length ∧
    (∀ i : Nat, (classCreateConstraints (ds.map mkDescriptionEntry))[i]? =
      (ds[i]?).map (fun d =>
        { identifier := d.identifier, signer := d.signer.getD addressZero,
          totalUsed := 0, allowedToUse := d.allowedToUse.getD 1 })) ∧
    (∀ (fd : List (String × List String)) (i : Nat),
      (createAgreementConstraints fd)[i]? = (fd[i]?).map (fun d =>
        { identifier := d.1, signer := addressZero, totalUsed := 0, allowedToUse := 1 })) := by
  refine ⟨by simp [classCreateConstraints], fun i => ?_,
    fun fd i => by simp [createAgreementConstraints]⟩
  simp only [classCreateConstraints, List.getElem?_map]
  cases hix : ds[i]? with
  | none => rfl
  | some d =>
    have hmem : d ∈ ds := List.getElem?_mem hix
    have hd := hval d hmem
    have hsig : jsStringOr (d.signer.getD addressZero) addressZero = d.signer.getD addressZero := by
      cases hs : d.signer with
      | none => decide
      | some s =>
        have hne : s ≠ "" := fun h => hd (by rw [hs, h])
        simp [jsStringOr, hne]
    simp [mkDescriptionEntry, hsig]

/-- Witness for C8 on a concrete description list with one fully-given and
one defaulted entry. -/
theorem createAgreement_constraints_witness :
    (classCreateConstraints
      ([⟨"employee", some "0xabc", some 2⟩, ⟨"hr", none, none⟩].map mkDescriptionEntry))[1]? =
      some ⟨"hr", addressZero, 0, 1⟩ := by
  rw [(createAgreement_constraints [⟨"employee", some "0xabc", some 2⟩, ⟨"hr", none, none⟩]
    (by decide)).2.1 1]
  decide

/-- Claim C9: list retrieval maps 1-based pages to offset
`(page - 1) * perPage` and limit `perPage`; fetching a single item by
index requests page `index + 1` with `perPage = 1` (offset `index`, limit
1) and returns the first element of that page — which, for the natural
sublist ledger semantics, is the element at position `index`. -/
theorem pagination_spec :
    (∀ (page perPage : Nat), 1 ≤ page →
      ∀ remote : Int → Nat → List AgreementM,
        contractGetList remote page perPage = remote (((page - 1 : Nat) : Int) * perPage) perPage) ∧
    (∀ (remote : Int → Nat → List AgreementM) (index : Nat),
      contractGetByIndex remote index = (remote (index : Int) 1).head?) ∧
    (∀ (stored : List AgreementM) (index : Nat),
      contractGetByIndex (ledgerList stored) index = stored[index]?) := by
  have hoff : ∀ index : Nat, ((((index + 1 : Nat) : Int) - 1) * (1 : Nat) : Int) = (index : Int) := by
    intro index
    push_cast
    ring
  refine ⟨fun page perPage h remote => ?_, fun remote index => ?_, fun stored index => ?_⟩
  · rw [contractGetList, Int.natCast_sub h]
    norm_num
  · rw [contractGetByIndex, contractGetList, hoff]
  · rw [contractGetByIndex, contractGetList, hoff, ledgerList,
      if_neg (by omega), Int.toNat_natCast, head?_take_one, head?_drop_eq]

/-- Witness for C9 at a concrete page. -/
theorem pagination_spec_witness :
    contractGetList (ledgerList [agreementW]) 2 1 =
      ledgerList [agreementW] (((2 - 1 : Nat) : Int) * 1) 1 :=
  pagination_spec.1 2 1 (by decide) (ledgerList [agreementW])

/-- Claim C10: every public contract method that reaches the signer or the
chain (`getProfile`, `getAgreements`, `getAgreement`, `getSignatures`,
`getSignature`, `createAgreement`, `sign`, `getAgreementEncryptionMessage`)
throws "Use `setSigner` to set an ethers Signer before using contract"
when no signer is configured, and issues no remote call at all. -/
theorem readyCheck_guards (c : ContractModel) (o : RemoteOracle) (h : c.signer = none) :
    classGetProfile c o = ([], .error readyCheckMsg) ∧
    (∀ address page perPage,
      classGetAgreements c o address page perPage = ([], .error readyCheckMsg)) ∧
    (∀ address index, classGetAgreement c o address index = ([], .error readyCheckMsg)) ∧
    (∀ address page perPage,
      classGetSignatures c o address page perPage = ([], .error readyCheckMsg)) ∧
    (∀ address index, classGetSignature c o address index = ([], .error readyCheckMsg)) ∧
    (∀ ag, classCreateAgreement c o ag = ([], .error readyCheckMsg)) ∧
    (∀ agreement identifier pdf,
      classSign c o agreement identifier pdf = ([], .error readyCheckMsg)) ∧
    (∀ a, classGetAgreementEncryptionMessage c a = ([], .error readyCheckMsg)) := by
  refine ⟨?_, fun address page perPage => ?_, fun address index => ?_,
    fun address page perPage => ?_, fun address index => ?_, fun ag => ?_,
    fun agreement identifier pdf => ?_, fun a => ?_⟩
  · simp [classGetProfile, h]
  · simp [classGetAgreements, h]
  · simp [classGetAgreement, h]
  · simp [classGetSignatures, h]
  · simp [classGetSignature, h]
  · simp [classCreateAgreement, h]
  · simp [classSign, h]
  · simp [classGetAgreementEncryptionMessage, h]

/-- Witness for C10 on a concrete signerless contract. -/
theorem readyCheck_guards_witness :
    classGetProfile ⟨"0xContract", none⟩ oracleW = ([], .error readyCheckMsg) :=
  (readyCheck_guards ⟨"0xContract", none⟩ oracleW rfl).1

end ZKsig
